import Mathlib

/-!
Verification of the persistent-session subsystem of exegol-mcp
(`src/exegol_mcp/session_manager.py`).

The Python module is shallowly embedded: every pure computation becomes a
Lean function and the stateful objects (`ExegolSession`, `SessionManager`)
become records transformed by explicit state-passing functions.  The
subprocess world is represented by the trace of events the read loop
observes (`ReadStep`): each loop iteration sees the wall-clock elapsed
milliseconds at its top-of-loop timeout check together with what
`readline` produced (a decoded line, an `asyncio.TimeoutError`, or
end-of-stream).  Wall-clock instants are natural numbers of milliseconds;
the Python code compares seconds, so a timeout of `t` seconds becomes the
bound `t * 1000` milliseconds.
-/

/-- Whitespace characters stripped by Python `str.strip()`. -/
def pyWs (c : Char) : Bool :=
  c = ' ' || c = '\t' || c = '\n' || c = '\r' || c = '\x0b' || c = '\x0c'

/-- Embedding of Python `str.strip()` on the character list of a string. -/
def trimChars (l : List Char) : List Char :=
  ((l.dropWhile pyWs).reverse.dropWhile pyWs).reverse

/-- Numeric value of an ASCII digit. -/
def digitVal (c : Char) : Nat := c.toNat - 48

/-- Remaining characters of a Python integer literal after its first digit:
digits optionally separated by single underscores, accumulating the value. -/
def parseDigitsAux : List Char → Nat → Option Nat
  | [], acc => some acc
  | '_' :: c :: rest, acc =>
    if c.isDigit then parseDigitsAux rest (acc * 10 + digitVal c) else none
  | c :: rest, acc =>
    if c.isDigit then parseDigitsAux rest (acc * 10 + digitVal c) else none

/-- Embedding of Python `int(s)` on a decimal string: surrounding whitespace
is ignored, an optional sign is followed by ASCII digits possibly separated
by single underscores; `none` models the `ValueError` branch. -/
def pyParseInt (l : List Char) : Option Int :=
  match trimChars l with
  | [] => none
  | '+' :: c :: rest =>
    if c.isDigit then (parseDigitsAux rest (digitVal c)).map Int.ofNat else none
  | '-' :: c :: rest =>
    if c.isDigit then (parseDigitsAux rest (digitVal c)).map (fun n => -(Int.ofNat n)) else none
  | c :: rest =>
    if c.isDigit then (parseDigitsAux rest (digitVal c)).map Int.ofNat else none

/-- The exit-code sentinel token echoed by the framed command
(`__EXEGOL_EXIT_CODE__` in `_exec_locked`). -/
def exitTok : String := "__EXEGOL_EXIT_CODE__"

/-- Worker for `removeTok`, structurally recursive on a fuel bound that
dominates the number of scan steps (each step consumes at least one
character, so any fuel above the input length is enough). -/
def removeTokAux : Nat → List Char → List Char
  | 0, _ => []
  | _ + 1, [] => []
  | n + 1, c :: rest =>
    if exitTok.data.isPrefixOf (c :: rest) then
      removeTokAux n (List.drop (exitTok.data.length - 1) rest)
    else c :: removeTokAux n rest

/-- Embedding of `line_str.replace("__EXEGOL_EXIT_CODE__", "")`: removes
every occurrence of the sentinel token, scanning left to right without
overlap, exactly as Python `str.replace` with an empty replacement. -/
def removeTok (l : List Char) : List Char := removeTokAux (l.length + 1) l

/-- Embedding of the `int(line_str.replace(token, "").strip())` parse in
`_exec_locked`, with the `ValueError` handler that yields `-1`. -/
def parseExit (line : String) : Int :=
  (pyParseInt (trimChars (removeTok line.data))).getD (-1)

/-- Whether the pattern occurs as a contiguous run inside the character
list, at any position. -/
def hasInfixChars (p : List Char) : List Char → Bool
  | [] => p.isPrefixOf []
  | c :: rest => p.isPrefixOf (c :: rest) || hasInfixChars p rest

/-- Embedding of Python substring containment (`marker in line_str`). -/
def strContains (pat : String) (s : String) : Bool :=
  hasInfixChars pat.data s.data

/-- Embedding of Python `str.startswith`. -/
def strStarts (pat : String) (s : String) : Bool :=
  pat.data.isPrefixOf s.data

/-- Embedding of `SessionConfig` (`session_manager.py`); `markerPre` embeds
the `output_marker_` naming field used to build end markers, and the two
timeouts are in seconds, as in the source. -/
structure SessionConfig where
  exegolPath : String
  default_timeout : Nat := 180
  session_idle_timeout : Nat := 300
  markerPre : String := "__EXEGOL_MCP_END_"
  deriving DecidableEq

/-- Embedding of `SessionMetrics`; timestamps are absolute milliseconds. -/
structure SessionMetrics where
  commands_executed : Nat := 0
  total_execution_time_ms : Nat := 0
  created_at : Nat := 0
  last_command_at : Nat := 0
  deriving DecidableEq

/-- Embedding of `SessionMetrics.record_command`: the current wall-clock
instant `nowMs` is passed explicitly in place of `time.time()`. -/
def SessionMetrics.record_command (m : SessionMetrics) (execMs nowMs : Nat) : SessionMetrics :=
  { m with
    commands_executed := m.commands_executed + 1
    total_execution_time_ms := m.total_execution_time_ms + execMs
    last_command_at := nowMs }

/-- State of an `ExegolSession` object: `hasProcess` models
`self.process is not None`, `is_closed` models `self._is_closed`. -/
structure ExegolSession where
  container_name : String
  session_id : Nat
  config : SessionConfig
  hasProcess : Bool
  is_closed : Bool
  metrics : SessionMetrics
  deriving DecidableEq

/-- Embedding of `ExegolSession.__init__`: a fresh, not-started session;
`freshId` stands for the random `uuid4` fragment and `nowMs` for
`time.time()` at construction. -/
def newSession (cfg : SessionConfig) (name : String) (freshId nowMs : Nat) : ExegolSession :=
  { container_name := name
    session_id := freshId
    config := cfg
    hasProcess := false
    is_closed := false
    metrics := { created_at := nowMs, last_command_at := nowMs } }

/-- Errors raised by `ExegolSession.start` (two `RuntimeError` branches and
the re-raised `FileNotFoundError` when the launcher cannot be spawned). -/
inductive StartError where
  | alreadyStarted
  | restartClosed
  | spawnFailed
  deriving DecidableEq

/-- Embedding of `ExegolSession.start`: `spawnOk` tells whether
`create_subprocess_exec` succeeds; the initial-output drain has no effect
on tracked state. -/
def ExegolSession.start (s : ExegolSession) (spawnOk : Bool) : Except StartError ExegolSession :=
  if s.hasProcess then Except.error StartError.alreadyStarted
  else if s.is_closed then Except.error StartError.restartClosed
  else if spawnOk then Except.ok { s with hasProcess := true }
  else Except.error StartError.spawnFailed

/-- What one iteration of the `_exec_locked` read loop observes from
`asyncio.wait_for(self.process.stdout.readline(), timeout=1.0)`. -/
inductive ReadEvent where
  | line (s : String)
  | readTimeout
  | eof
  deriving DecidableEq

/-- One read-loop iteration: `tMs` is the elapsed time in milliseconds at
the top-of-loop timeout check, `ev` what the subsequent read produced
(ignored when the timeout check fires first, as in the source). -/
structure ReadStep where
  tMs : Nat
  ev : ReadEvent
  deriving DecidableEq

/-- Result of the read loop of `_exec_locked`: either the loop broke
(via the end marker or the timeout check) with the accumulated stdout
lines, last parsed exit code and exit instant, or the process died
(`readline` returned empty bytes). -/
inductive LoopOutcome where
  | finished (stdout : List String) (ec : Int) (timed_out : Bool) (tExit : Nat)
  | died
  deriving DecidableEq

/-- Embedding of the `while True` read loop of `_exec_locked`.  `none`
means the event trace ran out before the loop terminated (the real loop
would still be blocked reading); it is a model artefact, not an outcome
of the source. -/
def readLoop (marker : String) (timeoutMs : Nat) :
    List String → Int → List ReadStep → Option LoopOutcome
  | _, _, [] => none
  | acc, ec, step :: rest =>
    if timeoutMs < step.tMs then
      some (LoopOutcome.finished acc.reverse ec true step.tMs)
    else
      match step.ev with
      | ReadEvent.readTimeout => readLoop marker timeoutMs acc ec rest
      | ReadEvent.eof => some LoopOutcome.died
      | ReadEvent.line u =>
        if strContains marker u then
          some (LoopOutcome.finished acc.reverse ec false step.tMs)
        else if strStarts exitTok u then
          readLoop marker timeoutMs acc (parseExit u) rest
        else
          readLoop marker timeoutMs (u :: acc) ec rest

/-- Errors raised by `ExegolSession.exec`: the three `RuntimeError`
branches (session not started, session closed, process died mid-read). -/
inductive ExecError where
  | notStarted
  | closedSession
  | sessionDied
  deriving DecidableEq

/-- Embedding of the dictionary returned by `_exec_locked`. -/
structure ExecResult where
  stdout : String
  stderr : String
  exit_code : Int
  execution_time_ms : Nat
  timed_out : Bool
  session_id : Nat
  deriving DecidableEq

deriving instance DecidableEq for Except

/-- Embedding of the framed command text written to the process stdin in
`_exec_locked` (the command, the exit-code echo, and the end-marker echo). -/
def fullCommand (command marker : String) : String :=
  command ++ "\necho __EXEGOL_EXIT_CODE__$?\necho " ++ marker ++ "\n"

/-- Embedding of `_exec_locked` (caller holds the lock): resolves the
timeout default, builds the per-call marker from the configured marker
pre-string and the fresh `nonce`, runs the read loop over the event
`trace`, and on normal exit records metrics and builds the result
dictionary; on process death marks the session closed and raises.
`startMs` is `time.time()` at entry, in milliseconds. -/
def exec_locked (s : ExegolSession) (nonce : String) (timeout? : Option Nat)
    (startMs : Nat) (trace : List ReadStep) :
    Option (ExegolSession × Except ExecError ExecResult) :=
  match readLoop (s.config.markerPre ++ nonce)
      ((timeout?.getD s.config.default_timeout) * 1000) [] 0 trace with
  | none => none
  | some LoopOutcome.died =>
    some ({ s with is_closed := true }, Except.error ExecError.sessionDied)
  | some (LoopOutcome.finished lines ec timedOut tExit) =>
    some ({ s with metrics := s.metrics.record_command tExit (startMs + tExit) },
      Except.ok
        { stdout := String.join lines
          stderr := ""
          exit_code := if timedOut then -1 else ec
          execution_time_ms := tExit
          timed_out := timedOut
          session_id := s.session_id })

/-- Embedding of `ExegolSession.exec`: the not-started and closed guards,
then the locked body.  The mutex itself is an event-loop construct with no
effect on sequential state. -/
def ExegolSession.exec (s : ExegolSession) (nonce : String) (timeout? : Option Nat)
    (startMs : Nat) (trace : List ReadStep) :
    Option (ExegolSession × Except ExecError ExecResult) :=
  if s.hasProcess = false then some (s, Except.error ExecError.notStarted)
  else if s.is_closed then some (s, Except.error ExecError.closedSession)
  else exec_locked s nonce timeout? startMs trace

/-- Strings written to the subprocess stdin by one `exec` call: nothing
when a guard raises before the write, otherwise the framed command. -/
def ExegolSession.execWrites (s : ExegolSession) (command nonce : String) : List String :=
  if s.hasProcess = false then []
  else if s.is_closed then []
  else [fullCommand command (s.config.markerPre ++ nonce)]

/-- Behaviour of the graceful-shutdown attempt inside `close()`: completed
within the 2-second wait, needed the kill after the wait timed out, or
raised and was caught by the `except` handler (which kills the process). -/
inductive CloseOutcome where
  | graceful
  | forcedKill
  | gracefulRaised
  deriving DecidableEq

/-- Embedding of `ExegolSession.close`: the early return when already
closed, otherwise the try/except shutdown block — none of whose branches
mutates tracked state — followed by setting the closed flag and releasing
the process handle. -/
def ExegolSession.close (s : ExegolSession) (o : CloseOutcome) : ExegolSession :=
  if s.is_closed then s
  else
    match o with
    | _ => { s with is_closed := true, hasProcess := false }

/-- Embedding of `ExegolSession.is_idle`:
`get_idle_time() > session_idle_timeout` at instant `nowMs`. -/
def ExegolSession.is_idle (s : ExegolSession) (nowMs : Nat) : Bool :=
  s.config.session_idle_timeout * 1000 < nowMs - s.metrics.last_command_at

/-- Lookup in the registry's session dictionary (first entry with the key,
which is the only one since Python dict keys are unique). -/
def lookupS : List (String × ExegolSession) → String → Option ExegolSession
  | [], _ => none
  | (k, v) :: rest, name => if k = name then some v else lookupS rest name

/-- Embedding of `del self.sessions[name]` on the association list. -/
def eraseS (l : List (String × ExegolSession)) (name : String) :
    List (String × ExegolSession) :=
  l.filter (fun p => !(p.1 = name))

/-- Embedding of `self.sessions[name] = session`: replace in place when the
key is present, otherwise append (Python dict insertion order). -/
def insertS : List (String × ExegolSession) → String → ExegolSession →
    List (String × ExegolSession)
  | [], k, v => [(k, v)]
  | (k', v') :: rest, k, v =>
    if k' = k then (k, v) :: rest else (k', v') :: insertS rest k v

/-- The keys of the session dictionary are pairwise distinct — always true
of a Python dict, and an invariant of the association-list model. -/
def keysNodup (l : List (String × ExegolSession)) : Prop :=
  (l.map Prod.fst).Nodup

instance (l : List (String × ExegolSession)) : Decidable (keysNodup l) := by
  unfold keysNodup; infer_instance

/-- Embedding of `SessionManager` state (the background cleanup task handle
carries no tracked state). -/
structure SessionManager where
  config : SessionConfig
  sessions : List (String × ExegolSession)
  deriving DecidableEq

/-- Embedding of the creation path at the end of `get_or_create_session`:
construct a new `ExegolSession`, `start()` it, and only on success store it
under the container name; a `start` failure propagates with the map as it
was when creation began. -/
def createSession (mgr : SessionManager) (name : String) (freshId nowMs : Nat)
    (spawnOk : Bool) : SessionManager × Except StartError ExegolSession :=
  match (newSession mgr.config name freshId nowMs).start spawnOk with
  | Except.error e => (mgr, Except.error e)
  | Except.ok s =>
    ({ mgr with sessions := insertS mgr.sessions name s }, Except.ok s)

/-- Embedding of `SessionManager.get_or_create_session`: reuse a cached
session when its process handle is set and it is not closed; otherwise
delete the dead entry and fall through to the creation path. -/
def get_or_create_session (mgr : SessionManager) (name : String)
    (freshId nowMs : Nat) (spawnOk : Bool) :
    SessionManager × Except StartError ExegolSession :=
  match lookupS mgr.sessions name with
  | some s =>
    if s.hasProcess && !s.is_closed then (mgr, Except.ok s)
    else createSession { mgr with sessions := eraseS mgr.sessions name }
      name freshId nowMs spawnOk
  | none => createSession mgr name freshId nowMs spawnOk

/-- Embedding of `SessionManager.close_session`: close and delete the named
session when present, reporting whether one existed. -/
def close_session (mgr : SessionManager) (name : String) : SessionManager × Bool :=
  match lookupS mgr.sessions name with
  | some _ => ({ mgr with sessions := eraseS mgr.sessions name }, true)
  | none => (mgr, false)

/-- Embedding of `SessionManager.cleanup_idle_sessions`: first scan the map
for the container names whose sessions are idle at instant `nowMs`, then
close each collected name, incrementing the count unconditionally as the
source does. -/
def cleanup_idle_sessions (mgr : SessionManager) (nowMs : Nat) : Nat × SessionManager :=
  ((mgr.sessions.filter (fun p => p.2.is_idle nowMs)).map Prod.fst).foldl
    (fun acc name => (acc.1 + 1, (close_session acc.2 name).1)) (0, mgr)

/-- A read-loop iteration that neither breaks nor raises: its timeout check
passes, and the read yields a one-second read timeout or a line that does
not contain the end marker. -/
def stepContinues (timeoutMs : Nat) (marker : String) (st : ReadStep) : Bool :=
  if timeoutMs < st.tMs then false
  else
    match st.ev with
    | ReadEvent.readTimeout => true
    | ReadEvent.eof => false
    | ReadEvent.line u => !(strContains marker u)

/-- The lines a run of continuing iterations appends to the stdout buffer:
every line event that does not start with the exit-code sentinel token. -/
def plainLines (steps : List ReadStep) : List String :=
  steps.filterMap fun st =>
    match st.ev with
    | ReadEvent.line u => if strStarts exitTok u then none else some u
    | _ => none

/-- The exit-code variable after a run of continuing iterations: the parse
of the last sentinel line if any, otherwise the incoming value. -/
def ecFinal (steps : List ReadStep) (ec : Int) : Int :=
  steps.foldl
    (fun e st =>
      match st.ev with
      | ReadEvent.line u => if strStarts exitTok u then parseExit u else e
      | _ => e) ec

/-- Whether an iteration read a line starting with the exit-code sentinel
token. -/
def isSentinelStep (st : ReadStep) : Bool :=
  match st.ev with
  | ReadEvent.line u => strStarts exitTok u
  | _ => false

/-- A trace fragment with no exit-code sentinel line. -/
def noSentinel (steps : List ReadStep) : Prop :=
  ∀ st ∈ steps, isSentinelStep st = false

instance (steps : List ReadStep) : Decidable (noSentinel steps) := by
  unfold noSentinel; infer_instance

/-- Concrete configuration used by the evaluation witnesses. -/
def cfg0 : SessionConfig := { exegolPath := "/usr/bin/exegol" }

/-- Concrete started, live session (the state after a successful
`start()` on a fresh session). -/
def s0 : ExegolSession :=
  { container_name := "cont", session_id := 1, config := cfg0,
    hasProcess := true, is_closed := false, metrics := {} }

/-- Concrete session in the state left by a mid-read process death: closed
flag set by the read loop, process handle still held. -/
def sDead : ExegolSession := { s0 with is_closed := true }

/-- Concrete end marker that `exec s0 "n0" …` builds. -/
def mkr0 : String := "__EXEGOL_MCP_END_n0"

/-- Concrete run of continuing read-loop iterations: an ordinary output
line, a one-second read timeout, and an exit-code sentinel line. -/
def preT : List ReadStep :=
  [⟨5, ReadEvent.line "out1\n"⟩, ⟨6, ReadEvent.readTimeout⟩,
   ⟨7, ReadEvent.line "__EXEGOL_EXIT_CODE__7\n"⟩]

/-- Concrete registry whose only cached session is dead (closed). -/
def mgrDead : SessionManager := { config := cfg0, sessions := [("cont", sDead)] }

/-- Concrete session whose last command was at instant 300001 ms. -/
def sFresh : ExegolSession := { s0 with metrics := { last_command_at := 300001 } }

/-- Concrete registry holding one idle and one fresh session. -/
def mgr2 : SessionManager := { config := cfg0, sessions := [("a", s0), ("b", sFresh)] }

/-- Metrics of `s0` after one recorded command of `t` elapsed ms started
at instant 0. -/
def mAfter (t : Nat) : SessionMetrics := ⟨1, t, 0, t⟩

/-- Concrete trace whose only line strictly contains, but is not equal to,
the end marker built for nonce `"n0"`. -/
def trCex1 : List ReadStep := [ReadStep.mk 5 (ReadEvent.line "x__EXEGOL_MCP_END_n0\n")]

/-- Concrete trace consisting only of the end-marker echo line, with no
exit-code sentinel line before it. -/
def trCex2 : List ReadStep := [ReadStep.mk 5 (ReadEvent.line "__EXEGOL_MCP_END_n0\n")]

/-- Concrete trailing trace left unread after the marker line. -/
def trRest : List ReadStep := [ReadStep.mk 9 (ReadEvent.line "junk\n")]

/-- Concrete trace reporting end-of-stream. -/
def trEof : List ReadStep := [ReadStep.mk 3 ReadEvent.eof]

/-- Concrete result of running `exec s0 "n0" none 0 trCex2`. -/
def rEnd : ExecResult :=
  { stdout := "", stderr := "", exit_code := 0, execution_time_ms := 5,
    timed_out := false, session_id := 1 }

/-- Unfolding equation for one iteration of the read loop. -/
theorem readLoop_cons (marker : String) (tm : Nat) (acc : List String) (ec : Int)
    (st : ReadStep) (rest : List ReadStep) :
    readLoop marker tm acc ec (st :: rest) =
      if tm < st.tMs then some (LoopOutcome.finished acc.reverse ec true st.tMs)
      else
        match st.ev with
        | ReadEvent.readTimeout => readLoop marker tm acc ec rest
        | ReadEvent.eof => some LoopOutcome.died
        | ReadEvent.line u =>
          if strContains marker u then
            some (LoopOutcome.finished acc.reverse ec false st.tMs)
          else if strStarts exitTok u then readLoop marker tm acc (parseExit u) rest
          else readLoop marker tm (u :: acc) ec rest := by
  rfl

/-- A run of continuing iterations only accumulates: it appends its plain
lines to the stdout buffer, folds its sentinel lines into the exit-code
variable, and leaves the loop reading the remaining trace. -/
theorem readLoop_skip (marker : String) (tm : Nat) (pre rest : List ReadStep) :
    ∀ acc ec, (∀ st ∈ pre, stepContinues tm marker st = true) →
    readLoop marker tm acc ec (pre ++ rest)
      = readLoop marker tm ((plainLines pre).reverse ++ acc) (ecFinal pre ec) rest := by
  induction pre with
  | nil => intro acc ec _; simp [plainLines, ecFinal]
  | cons st pre' ih =>
    intro acc ec h
    obtain ⟨t, ev⟩ := st
    have hc : stepContinues tm marker ⟨t, ev⟩ = true := h _ (List.mem_cons_self _ _)
    have h' : ∀ x ∈ pre', stepContinues tm marker x = true :=
      fun x hx => h x (List.mem_cons_of_mem _ hx)
    unfold stepContinues at hc
    by_cases htm : tm < t
    · simp [htm] at hc
    · simp only [htm, if_false] at hc
      cases ev with
      | readTimeout =>
        rw [List.cons_append, readLoop_cons]
        simp only [if_neg htm]
        rw [ih acc ec h']
        simp [plainLines, ecFinal, List.filterMap_cons]
      | eof => simp at hc
      | line u =>
        have hcon : strContains marker u = false := by simpa using hc
        rw [List.cons_append, readLoop_cons]
        simp only [if_neg htm]
        by_cases hsent : strStarts exitTok u = true
        · simp only [hcon, Bool.false_eq_true, if_false, hsent, if_true]
          rw [ih acc (parseExit u) h']
          simp [plainLines, ecFinal, List.filterMap_cons, hsent]
        · have hsent' : strStarts exitTok u = false := by
            cases hx : strStarts exitTok u
            · rfl
            · exact absurd hx hsent
          simp only [hcon, Bool.false_eq_true, if_false, hsent', if_false]
          rw [ih (u :: acc) ec h']
          simp [plainLines, ecFinal, List.filterMap_cons, hsent']

/-- On a started, not-closed session `exec` reaches the locked body. -/
theorem exec_live (s : ExegolSession) (hp : s.hasProcess = true)
    (hcl : s.is_closed = false) (nonce : String) (timeout? : Option Nat)
    (startMs : Nat) (trace : List ReadStep) :
    ExegolSession.exec s nonce timeout? startMs trace
      = exec_locked s nonce timeout? startMs trace := by
  unfold ExegolSession.exec
  rw [hp, hcl]
  simp

/-- Shape of an `exec` run that ends at a marker-containing line after a
run of continuing iterations. -/
theorem exec_marker_run (s : ExegolSession) (nonce : String) (timeout? : Option Nat)
    (startMs : Nat) (pre rest : List ReadStep) (t : Nat) (u : String)
    (hp : s.hasProcess = true) (hcl : s.is_closed = false)
    (hpre : ∀ st ∈ pre, stepContinues ((timeout?.getD s.config.default_timeout) * 1000)
      (s.config.markerPre ++ nonce) st = true)
    (ht : t ≤ (timeout?.getD s.config.default_timeout) * 1000)
    (hu : strContains (s.config.markerPre ++ nonce) u = true) :
    ExegolSession.exec s nonce timeout? startMs (pre ++ ⟨t, ReadEvent.line u⟩ :: rest)
      = some ({ s with metrics := s.metrics.record_command t (startMs + t) },
          Except.ok
            { stdout := String.join (plainLines pre), stderr := "",
              exit_code := ecFinal pre 0, execution_time_ms := t,
              timed_out := false, session_id := s.session_id }) := by
  rw [exec_live s hp hcl]
  unfold exec_locked
  rw [readLoop_skip _ _ pre _ [] 0 hpre, readLoop_cons]
  rw [if_neg (Nat.not_lt.mpr ht)]
  simp [hu]

/-- Shape of an `exec` run whose wall-clock timeout check fires after a
run of continuing iterations. -/
theorem exec_timeout_run (s : ExegolSession) (nonce : String) (timeout? : Option Nat)
    (startMs : Nat) (pre rest : List ReadStep) (t : Nat) (ev : ReadEvent)
    (hp : s.hasProcess = true) (hcl : s.is_closed = false)
    (hpre : ∀ st ∈ pre, stepContinues ((timeout?.getD s.config.default_timeout) * 1000)
      (s.config.markerPre ++ nonce) st = true)
    (ht : (timeout?.getD s.config.default_timeout) * 1000 < t) :
    ExegolSession.exec s nonce timeout? startMs (pre ++ ⟨t, ev⟩ :: rest)
      = some ({ s with metrics := s.metrics.record_command t (startMs + t) },
          Except.ok
            { stdout := String.join (plainLines pre), stderr := "",
              exit_code := -1, execution_time_ms := t,
              timed_out := true, session_id := s.session_id }) := by
  rw [exec_live s hp hcl]
  unfold exec_locked
  rw [readLoop_skip _ _ pre _ [] 0 hpre, readLoop_cons]
  rw [if_pos ht]
  simp

/-- Shape of an `exec` run in which the output pipe reports end-of-stream
(within the timeout) after a run of continuing iterations. -/
theorem exec_eof_run (s : ExegolSession) (nonce : String) (timeout? : Option Nat)
    (startMs : Nat) (pre rest : List ReadStep) (t : Nat)
    (hp : s.hasProcess = true) (hcl : s.is_closed = false)
    (hpre : ∀ st ∈ pre, stepContinues ((timeout?.getD s.config.default_timeout) * 1000)
      (s.config.markerPre ++ nonce) st = true)
    (ht : t ≤ (timeout?.getD s.config.default_timeout) * 1000) :
    ExegolSession.exec s nonce timeout? startMs (pre ++ ⟨t, ReadEvent.eof⟩ :: rest)
      = some ({ s with is_closed := true }, Except.error ExecError.sessionDied) := by
  rw [exec_live s hp hcl]
  unfold exec_locked
  rw [readLoop_skip _ _ pre _ [] 0 hpre, readLoop_cons]
  rw [if_neg (Nat.not_lt.mpr ht)]

/-- A run with no sentinel line leaves the exit-code variable unchanged. -/
theorem ecFinal_noSentinel (pre : List ReadStep) :
    ∀ ec, noSentinel pre → ecFinal pre ec = ec := by
  induction pre with
  | nil => intro ec _; simp [ecFinal]
  | cons st pre' ih =>
    intro ec h
    have hst : isSentinelStep st = false := h st (List.mem_cons_self _ _)
    have h' : noSentinel pre' := fun x hx => h x (List.mem_cons_of_mem _ hx)
    obtain ⟨t, ev⟩ := st
    cases ev with
    | readTimeout => simpa [ecFinal] using ih ec h'
    | eof => simpa [ecFinal] using ih ec h'
    | line u =>
      have hu : strStarts exitTok u = false := by simpa [isSentinelStep] using hst
      simpa [ecFinal, hu] using ih ec h'

/-- A string starting with the exit-code sentinel token is never among the
lines appended to the stdout buffer. -/
theorem sentinel_not_plain (u : String) (h : strStarts exitTok u = true) :
    ∀ steps : List ReadStep, u ∉ plainLines steps := by
  intro steps hm
  simp only [plainLines, List.mem_filterMap] at hm
  obtain ⟨st, _, heq⟩ := hm
  revert heq
  cases st.ev with
  | readTimeout => simp
  | eof => simp
  | line v =>
    by_cases hv : strStarts exitTok v = true
    · simp [hv]
    · simp only [hv]
      intro heq
      obtain rfl : v = u := by simpa using heq
      simp [h] at hv

/-- C1 counterexample.  The claim states the read loop terminates at, and
consumes, exactly the output line that is exactly equal to the end marker.
On the trace `trCex1`, whose only line strictly contains the marker
`__EXEGOL_MCP_END_n0` but is not equal to it (it has a leading `x` and a
trailing newline), the loop nevertheless consumes that line and returns
normally: the source tests `marker in line_str` (substring containment),
not equality — note the happy-path marker echo itself arrives with a
trailing newline, so an equality test could never fire. -/
theorem marker_containment_cex :
    ExegolSession.exec s0 "n0" none 0 trCex1
      = some ({ s0 with metrics := mAfter 5 },
          Except.ok
            { stdout := "", stderr := "", exit_code := 0,
              execution_time_ms := 5, timed_out := false, session_id := 1 })
    ∧ "x__EXEGOL_MCP_END_n0\n" ≠ cfg0.markerPre ++ "n0"
    ∧ mkr0 = cfg0.markerPre ++ "n0" := by
  exact ⟨by decide, by decide, by decide⟩

/-- C1, amended.  For every execution through `ExegolSession.exec` on a
started, live session, the read loop terminates at, and consumes, the
first output line that CONTAINS the end marker (marker prefix concatenated
with the per-call nonce) as a substring; every earlier line that does not
start with the exit-code sentinel token is appended, in order, to the
returned stdout (`plainLines pre`, which preserves trace order and drops
sentinel lines), and the marker-containing line itself is never part of
the returned stdout — the result only joins the lines read before it, and
everything after it (`rest`) is left unread. -/
theorem exec_marker_framing (s : ExegolSession) (nonce : String)
    (timeout? : Option Nat) (startMs : Nat) (pre rest : List ReadStep)
    (t : Nat) (u : String)
    (hp : s.hasProcess = true) (hcl : s.is_closed = false)
    (hpre : ∀ st ∈ pre, stepContinues ((timeout?.getD s.config.default_timeout) * 1000)
      (s.config.markerPre ++ nonce) st = true)
    (ht : t ≤ (timeout?.getD s.config.default_timeout) * 1000)
    (hu : strContains (s.config.markerPre ++ nonce) u = true) :
    ExegolSession.exec s nonce timeout? startMs (pre ++ ⟨t, ReadEvent.line u⟩ :: rest)
      = some ({ s with metrics := s.metrics.record_command t (startMs + t) },
          Except.ok
            { stdout := String.join (plainLines pre), stderr := "",
              exit_code := ecFinal pre 0, execution_time_ms := t,
              timed_out := false, session_id := s.session_id }) := by
  exact exec_marker_run s nonce timeout? startMs pre rest t u hp hcl hpre ht hu

/-- Witness for C1: a concrete run — an ordinary line, a one-second read
timeout, a sentinel line, then a line containing the marker — returns
stdout `"out1\n"`, consumes the marker line, and never reads `trRest`. -/
theorem exec_marker_framing_wit :
    ExegolSession.exec s0 "n0" none 0 (preT ++ ⟨8, ReadEvent.line "hello __EXEGOL_MCP_END_n0\n"⟩ :: trRest)
      = some ({ s0 with metrics := mAfter 8 },
          Except.ok
            { stdout := "out1\n", stderr := "", exit_code := 7,
              execution_time_ms := 8, timed_out := false, session_id := 1 }) := by
  have h := exec_marker_framing s0 "n0" none 0 preT trRest 8
    "hello __EXEGOL_MCP_END_n0\n" rfl rfl (by decide) (by decide) (by decide)
  rw [h]
  decide

/-- C2 counterexample.  The claim states that whenever no sentinel line is
consumed before the read loop ends, the returned exit code is the sentinel
value `-1`.  On the trace `trCex2` — the marker echo alone, with no
exit-code sentinel line — the loop ends via the marker without timing out
and `exec` returns exit code `0`: the source initialises `exit_code = 0`
and only substitutes `-1` on the timeout path or on a parse failure. -/
theorem exit_code_default_cex :
    ExegolSession.exec s0 "n0" none 0 trCex2
      = some ({ s0 with metrics := mAfter 5 },
          Except.ok
            { stdout := "", stderr := "", exit_code := 0,
              execution_time_ms := 5, timed_out := false, session_id := 1 })
    ∧ noSentinel trCex2
    ∧ (0 : Int) ≠ -1 := by
  exact ⟨by decide, by decide, by decide⟩

/-- C2, amended.  On a started, live session: (1) a run that ends at a
marker-containing line returns as exit code the fold of the sentinel lines
consumed (`ecFinal pre 0`: the parse of the most recent sentinel line,
where an unparseable trailing text yields `-1` inside `parseExit`), and
its stdout joins exactly the non-sentinel lines, so every sentinel line is
consumed and not appended; (2) when no sentinel line is consumed the
exit-code variable keeps its initial value — `0`, not `-1`; (3) a string
starting with the sentinel token is never among the appended lines; and
(4) when the timeout check ends the loop the returned exit code is forced
to `-1` with the timed-out flag set. -/
theorem exec_exit_code_rules :
    (∀ (s : ExegolSession) (nonce : String) (timeout? : Option Nat) (startMs : Nat)
        (pre rest : List ReadStep) (t : Nat) (u : String),
      s.hasProcess = true → s.is_closed = false →
      (∀ st ∈ pre, stepContinues ((timeout?.getD s.config.default_timeout) * 1000)
        (s.config.markerPre ++ nonce) st = true) →
      t ≤ (timeout?.getD s.config.default_timeout) * 1000 →
      strContains (s.config.markerPre ++ nonce) u = true →
      ExegolSession.exec s nonce timeout? startMs (pre ++ ⟨t, ReadEvent.line u⟩ :: rest)
        = some ({ s with metrics := s.metrics.record_command t (startMs + t) },
            Except.ok
              { stdout := String.join (plainLines pre), stderr := "",
                exit_code := ecFinal pre 0, execution_time_ms := t,
                timed_out := false, session_id := s.session_id }))
    ∧ (∀ (pre : List ReadStep) (ec : Int), noSentinel pre → ecFinal pre ec = ec)
    ∧ (∀ u : String, strStarts exitTok u = true → ∀ steps : List ReadStep, u ∉ plainLines steps)
    ∧ (∀ (s : ExegolSession) (nonce : String) (timeout? : Option Nat) (startMs : Nat)
        (pre rest : List ReadStep) (t : Nat) (ev : ReadEvent),
      s.hasProcess = true → s.is_closed = false →
      (∀ st ∈ pre, stepContinues ((timeout?.getD s.config.default_timeout) * 1000)
        (s.config.markerPre ++ nonce) st = true) →
      (timeout?.getD s.config.default_timeout) * 1000 < t →
      ExegolSession.exec s nonce timeout? startMs (pre ++ ⟨t, ev⟩ :: rest)
        = some ({ s with metrics := s.metrics.record_command t (startMs + t) },
            Except.ok
              { stdout := String.join (plainLines pre), stderr := "",
                exit_code := -1, execution_time_ms := t,
                timed_out := true, session_id := s.session_id })) := by
  refine ⟨?_, ?_, ?_, ?_⟩
  · intro s nonce timeout? startMs pre rest t u hp hcl hpre ht hu
    exact exec_marker_run s nonce timeout? startMs pre rest t u hp hcl hpre ht hu
  · intro pre ec h
    exact ecFinal_noSentinel pre ec h
  · intro u h steps
    exact sentinel_not_plain u h steps
  · intro s nonce timeout? startMs pre rest t ev hp hcl hpre ht
    exact exec_timeout_run s nonce timeout? startMs pre rest t ev hp hcl hpre ht

/-- Witness for C2: the concrete run of `exec_marker_framing_wit`'s shape
returns exit code `7` parsed from the sentinel line; `ecFinal` of a
sentinel-free run is the initial `0`; the concrete sentinel line is not
among the appended lines of `preT`; and a concrete timed-out run returns
exit code `-1`. -/
theorem exec_exit_code_rules_wit :
    ExegolSession.exec s0 "n0" none 0 (preT ++ ⟨8, ReadEvent.line "hello __EXEGOL_MCP_END_n0\n"⟩ :: trRest)
      = some ({ s0 with metrics := mAfter 8 },
          Except.ok
            { stdout := "out1\n", stderr := "", exit_code := 7,
              execution_time_ms := 8, timed_out := false, session_id := 1 })
    ∧ ecFinal trCex2 0 = 0
    ∧ "__EXEGOL_EXIT_CODE__7\n" ∉ plainLines preT
    ∧ ExegolSession.exec s0 "n0" (some 2) 0 (preT ++ ⟨2001, ReadEvent.line "late\n"⟩ :: trRest)
      = some ({ s0 with metrics := mAfter 2001 },
          Except.ok
            { stdout := "out1\n", stderr := "", exit_code := -1,
              execution_time_ms := 2001, timed_out := true, session_id := 1 }) := by
  obtain ⟨h1, h2, h3, h4⟩ := exec_exit_code_rules
  refine ⟨?_, ?_, ?_, ?_⟩
  · rw [h1 s0 "n0" none 0 preT trRest 8 "hello __EXEGOL_MCP_END_n0\n"
      rfl rfl (by decide) (by decide) (by decide)]
    decide
  · exact h2 trCex2 0 (by decide)
  · exact h3 "__EXEGOL_EXIT_CODE__7\n" (by decide) preT
  · rw [h4 s0 "n0" (some 2) 0 preT trRest 2001 (ReadEvent.line "late\n")
      rfl rfl (by decide) (by decide)]
    decide

/-- C3, confirmed.  When the wall-clock timeout elapses (the top-of-loop
check sees an elapsed time beyond the bound) before any marker-containing
line, `exec` returns normally — no error value — with the timed-out flag
set and exit code `-1`; the session's closed flag stays `false` (only the
metrics field changes), and a subsequent `exec` on the same session is not
rejected: it reaches the locked body exactly as on any live session. -/
theorem exec_timeout_normal_return (s : ExegolSession) (nonce : String)
    (timeout? : Option Nat) (startMs : Nat) (pre rest : List ReadStep)
    (t : Nat) (ev : ReadEvent)
    (hp : s.hasProcess = true) (hcl : s.is_closed = false)
    (hpre : ∀ st ∈ pre, stepContinues ((timeout?.getD s.config.default_timeout) * 1000)
      (s.config.markerPre ++ nonce) st = true)
    (ht : (timeout?.getD s.config.default_timeout) * 1000 < t) :
    ExegolSession.exec s nonce timeout? startMs (pre ++ ⟨t, ev⟩ :: rest)
      = some ({ s with metrics := s.metrics.record_command t (startMs + t) },
          Except.ok
            { stdout := String.join (plainLines pre), stderr := "",
              exit_code := -1, execution_time_ms := t,
              timed_out := true, session_id := s.session_id })
    ∧ ExegolSession.is_closed
        { s with metrics := s.metrics.record_command t (startMs + t) } = false
    ∧ (∀ (nonce2 : String) (timeout2 : Option Nat) (startMs2 : Nat) (tr2 : List ReadStep),
        ExegolSession.exec { s with metrics := s.metrics.record_command t (startMs + t) }
            nonce2 timeout2 startMs2 tr2
          = exec_locked { s with metrics := s.metrics.record_command t (startMs + t) }
              nonce2 timeout2 startMs2 tr2) := by
  refine ⟨exec_timeout_run s nonce timeout? startMs pre rest t ev hp hcl hpre ht, hcl, ?_⟩
  intro nonce2 timeout2 startMs2 tr2
  exact exec_live { s with metrics := s.metrics.record_command t (startMs + t) }
    hp hcl nonce2 timeout2 startMs2 tr2

/-- Witness for C3: a concrete two-second-timeout run that times out at
2001 ms, returning normally with partial stdout, exit code `-1`, a live
(not closed) session, and an unguarded path into a next execution. -/
theorem exec_timeout_normal_return_wit :
    ExegolSession.exec s0 "n0" (some 2) 0 (preT ++ ⟨2001, ReadEvent.readTimeout⟩ :: trRest)
      = some ({ s0 with metrics := mAfter 2001 },
          Except.ok
            { stdout := "out1\n", stderr := "", exit_code := -1,
              execution_time_ms := 2001, timed_out := true, session_id := 1 })
    ∧ ExegolSession.is_closed { s0 with metrics := mAfter 2001 } = false
    ∧ ExegolSession.exec { s0 with metrics := mAfter 2001 } "n1" none 0 trCex2
      = exec_locked { s0 with metrics := mAfter 2001 } "n1" none 0 trCex2 := by
  obtain ⟨h1, h2, h3⟩ := exec_timeout_normal_return s0 "n0" (some 2) 0 preT trRest
    2001 ReadEvent.readTimeout rfl rfl (by decide) (by decide)
  refine ⟨by rw [h1]; decide, by decide, ?_⟩
  have h := h3 "n1" none 0 trCex2
  rw [show ({ s0 with metrics := SessionMetrics.record_command s0.metrics 2001 (0 + 2001) } : ExegolSession)
      = { s0 with metrics := mAfter 2001 } from by decide] at h
  exact h

/-- C4, confirmed.  When the output pipe reports end-of-stream (within the
timeout) before any marker-containing line, `exec` marks the session
closed and fails with the session-died error; every subsequent `exec` on
that session fails with the closed-session error without reading any
trace event or changing state, and writes nothing to the subprocess
stdin (`execWrites` is empty). -/
theorem exec_eof_session_died (s : ExegolSession) (nonce : String)
    (timeout? : Option Nat) (startMs : Nat) (pre rest : List ReadStep) (t : Nat)
    (hp : s.hasProcess = true) (hcl : s.is_closed = false)
    (hpre : ∀ st ∈ pre, stepContinues ((timeout?.getD s.config.default_timeout) * 1000)
      (s.config.markerPre ++ nonce) st = true)
    (ht : t ≤ (timeout?.getD s.config.default_timeout) * 1000) :
    ExegolSession.exec s nonce timeout? startMs (pre ++ ⟨t, ReadEvent.eof⟩ :: rest)
      = some ({ s with is_closed := true }, Except.error ExecError.sessionDied)
    ∧ ExegolSession.is_closed { s with is_closed := true } = true
    ∧ (∀ (nonce2 : String) (timeout2 : Option Nat) (startMs2 : Nat) (tr2 : List ReadStep),
        ExegolSession.exec { s with is_closed := true } nonce2 timeout2 startMs2 tr2
          = some ({ s with is_closed := true }, Except.error ExecError.closedSession))
    ∧ (∀ command nonce2 : String,
        ExegolSession.execWrites { s with is_closed := true } command nonce2 = []) := by
  refine ⟨exec_eof_run s nonce timeout? startMs pre rest t hp hcl hpre ht, rfl, ?_, ?_⟩
  · intro nonce2 timeout2 startMs2 tr2
    unfold ExegolSession.exec
    simp [hp]
  · intro command nonce2
    unfold ExegolSession.execWrites
    simp [hp]

/-- Witness for C4: on the concrete end-of-stream trace `trEof` the
session `s0` dies into `sDead` (closed flag set), and on `sDead` a next
`exec` is rejected as closed and writes nothing. -/
theorem exec_eof_session_died_wit :
    ExegolSession.exec s0 "n0" none 0 ([] ++ ⟨3, ReadEvent.eof⟩ :: [])
      = some ({ s0 with is_closed := true }, Except.error ExecError.sessionDied)
    ∧ ExegolSession.is_closed { s0 with is_closed := true } = true
    ∧ ExegolSession.exec { s0 with is_closed := true } "n1" none 0 trCex2
      = some ({ s0 with is_closed := true }, Except.error ExecError.closedSession)
    ∧ ExegolSession.execWrites { s0 with is_closed := true } "ls" "n1" = [] := by
  obtain ⟨h1, h2, h3, h4⟩ := exec_eof_session_died s0 "n0" none 0 [] [] 3
    rfl rfl (by decide) (by decide)
  exact ⟨h1, h2, h3 "n1" none 0 trCex2, h4 "ls" "n1"⟩


/-- Looking a key up after erasing it finds nothing. -/
theorem lookupS_eraseS_self (l : List (String × ExegolSession)) (k : String) :
    lookupS (eraseS l k) k = none := by
  induction l with
  | nil => rfl
  | cons p rest ih =>
    obtain ⟨pk, pv⟩ := p
    by_cases hp : pk = k
    · simpa [eraseS, List.filter_cons, hp] using ih
    · simpa [eraseS, List.filter_cons, hp, lookupS] using ih

/-- Erasing one key leaves lookups of other keys unchanged. -/
theorem lookupS_eraseS_ne (l : List (String × ExegolSession)) (k k' : String)
    (h : k' ≠ k) : lookupS (eraseS l k) k' = lookupS l k' := by
  induction l with
  | nil => rfl
  | cons p rest ih =>
    obtain ⟨pk, pv⟩ := p
    by_cases hp : pk = k
    · subst hp
      simpa [eraseS, List.filter_cons, lookupS, Ne.symm h] using ih
    · by_cases hpk' : pk = k'
      · subst hpk'
        simp [eraseS, List.filter_cons, hp, lookupS, h]
      · simpa [eraseS, List.filter_cons, hp, lookupS, hpk'] using ih

/-- Erasing an absent key is a no-op. -/
theorem eraseS_of_lookup_none (l : List (String × ExegolSession)) (k : String)
    (h : lookupS l k = none) : eraseS l k = l := by
  induction l with
  | nil => rfl
  | cons p rest ih =>
    obtain ⟨pk, pv⟩ := p
    by_cases hp : pk = k
    · simp [lookupS, hp] at h
    · simp [lookupS, hp] at h
      simpa [eraseS, List.filter_cons, hp] using ih h

/-- Inserting a key makes it found with the inserted value. -/
theorem lookupS_insertS_self (l : List (String × ExegolSession)) (k : String)
    (v : ExegolSession) : lookupS (insertS l k v) k = some v := by
  induction l with
  | nil => simp [insertS, lookupS]
  | cons p rest ih =>
    obtain ⟨pk, pv⟩ := p
    by_cases hp : pk = k
    · simp [insertS, hp, lookupS]
    · simpa [insertS, hp, lookupS] using ih

/-- Inserting one key leaves lookups of other keys unchanged. -/
theorem lookupS_insertS_ne (l : List (String × ExegolSession)) (k k' : String)
    (v : ExegolSession) (h : k' ≠ k) :
    lookupS (insertS l k v) k' = lookupS l k' := by
  induction l with
  | nil => simp [insertS, lookupS, Ne.symm h]
  | cons p rest ih =>
    obtain ⟨pk, pv⟩ := p
    by_cases hp : pk = k
    · simp [insertS, hp, lookupS, Ne.symm h]
    · by_cases hpk' : pk = k'
      · subst hpk'
        simp [insertS, hp, lookupS, h]
      · simpa [insertS, hp, lookupS, hpk'] using ih

/-- A found key is among the dictionary's keys. -/
theorem lookupS_mem_keys (l : List (String × ExegolSession)) (k : String)
    (v : ExegolSession) (h : lookupS l k = some v) : k ∈ l.map Prod.fst := by
  induction l with
  | nil => simp [lookupS] at h
  | cons p rest ih =>
    obtain ⟨pk, pv⟩ := p
    by_cases hp : pk = k
    · simp [hp]
    · simp [lookupS, hp] at h
      simp [ih h]

/-- Erasing preserves key distinctness. -/
theorem keysNodup_eraseS (l : List (String × ExegolSession)) (k : String)
    (h : keysNodup l) : keysNodup (eraseS l k) := by
  unfold keysNodup eraseS at *
  exact List.Nodup.sublist ((List.filter_sublist l).map Prod.fst) h

/-- A key of the dictionary after an insertion is the inserted key or one
of the original keys. -/
theorem mem_keys_insertS (l : List (String × ExegolSession)) (k : String)
    (v : ExegolSession) (x : String)
    (h : x ∈ (insertS l k v).map Prod.fst) : x = k ∨ x ∈ l.map Prod.fst := by
  induction l with
  | nil =>
    simp [insertS] at h
    exact Or.inl h
  | cons p rest ih =>
    obtain ⟨pk, pv⟩ := p
    by_cases hp : pk = k
    · subst hp
      rw [show insertS ((pk, pv) :: rest) pk v = (pk, v) :: rest from by simp [insertS]] at h
      rw [List.map_cons] at h
      rcases List.mem_cons.mp h with h' | h'
      · exact Or.inl h'
      · right
        rw [List.map_cons]
        exact List.mem_cons_of_mem _ h'
    · rw [show insertS ((pk, pv) :: rest) k v = (pk, pv) :: insertS rest k v from by
        simp [insertS, hp]] at h
      rw [List.map_cons] at h
      rcases List.mem_cons.mp h with h' | h'
      · right
        rw [List.map_cons, h']
        exact List.mem_cons_self _ _
      · rcases ih h' with h'' | h''
        · exact Or.inl h''
        · right
          rw [List.map_cons]
          exact List.mem_cons_of_mem _ h''

/-- Insertion (replace in place or append) preserves key distinctness. -/
theorem keysNodup_insertS (l : List (String × ExegolSession)) (k : String)
    (v : ExegolSession) (h : keysNodup l) : keysNodup (insertS l k v) := by
  induction l with
  | nil => simp [keysNodup, insertS]
  | cons p rest ih =>
    obtain ⟨pk, pv⟩ := p
    unfold keysNodup at h
    rw [List.map_cons, List.nodup_cons] at h
    obtain ⟨hnot, hrest⟩ := h
    by_cases hp : pk = k
    · subst hp
      unfold keysNodup
      rw [show insertS ((pk, pv) :: rest) pk v = (pk, v) :: rest from by simp [insertS]]
      rw [List.map_cons, List.nodup_cons]
      exact ⟨hnot, hrest⟩
    · have ihr := ih hrest
      unfold keysNodup at ihr ⊢
      rw [show insertS ((pk, pv) :: rest) k v = (pk, pv) :: insertS rest k v from by
        simp [insertS, hp]]
      rw [List.map_cons, List.nodup_cons]
      refine ⟨?_, ihr⟩
      intro hmem
      rcases mem_keys_insertS rest k v pk hmem with h' | h'
      · exact hp h'
      · exact hnot h'

/-- With distinct keys, two entries sharing a key are the same entry. -/
theorem keys_nodup_inj (l : List (String × ExegolSession))
    (h : keysNodup l) (p q : String × ExegolSession)
    (hp : p ∈ l) (hq : q ∈ l) (hk : p.1 = q.1) : p = q := by
  induction l with
  | nil => cases hp
  | cons a rest ih =>
    unfold keysNodup at h
    rw [List.map_cons, List.nodup_cons] at h
    obtain ⟨ha, hrest⟩ := h
    rcases List.mem_cons.mp hp with rfl | hp'
    · rcases List.mem_cons.mp hq with rfl | hq'
      · rfl
      · exact absurd (hk ▸ List.mem_map_of_mem Prod.fst hq') ha
    · rcases List.mem_cons.mp hq with rfl | hq'
      · exact absurd (hk ▸ List.mem_map_of_mem Prod.fst hp') (by simpa [hk] using ha)
      · exact ih hrest hp' hq'

/-- With distinct keys, a lookup succeeding in a filtered dictionary
succeeds with the same value in the original. -/
theorem lookupS_filter_nodup (l : List (String × ExegolSession))
    (h : keysNodup l) (q : String × ExegolSession → Bool) (k : String)
    (v : ExegolSession) (hf : lookupS (l.filter q) k = some v) :
    lookupS l k = some v := by
  induction l with
  | nil => exact hf
  | cons p rest ih =>
    obtain ⟨pk, pv⟩ := p
    unfold keysNodup at h
    rw [List.map_cons, List.nodup_cons] at h
    obtain ⟨ha, hrest⟩ := h
    by_cases hq : q (pk, pv) = true
    · rw [List.filter_cons_of_pos hq] at hf
      by_cases hp : pk = k
      · simpa [lookupS, hp] using hf
      · rw [show lookupS ((pk, pv) :: List.filter q rest) k = lookupS (List.filter q rest) k
          from by simp [lookupS, hp]] at hf
        simpa [lookupS, hp] using ih hrest hf
    · rw [List.filter_cons_of_neg (by simpa using hq)] at hf
      have hk : lookupS rest k = some v := ih hrest hf
      by_cases hp : pk = k
      · exact absurd (hp ▸ lookupS_mem_keys rest k v hk) ha
      · simpa [lookupS, hp] using hk

/-- The registry state after `close_session`, uniformly over whether the
name was present: the entry (if any) is erased and the config kept. -/
theorem close_session_fst (mgr : SessionManager) (name : String) :
    (close_session mgr name).1
      = { config := mgr.config, sessions := eraseS mgr.sessions name } := by
  unfold close_session
  cases h : lookupS mgr.sessions name with
  | some s => rfl
  | none => simp [eraseS_of_lookup_none mgr.sessions name h]

/-- The counting fold of `cleanup_idle_sessions`, characterised: the count
grows by the number of scanned names and the map has every scanned name
erased. -/
theorem cleanup_foldl_general (names : List String) :
    ∀ (c : Nat) (mgr : SessionManager),
    names.foldl (fun acc name => (acc.1 + 1, (close_session acc.2 name).1)) (c, mgr)
      = (c + names.length,
         { config := mgr.config, sessions := names.foldl eraseS mgr.sessions }) := by
  induction names with
  | nil => intro c mgr; simp
  | cons n ns ih =>
    intro c mgr
    rw [List.foldl_cons, List.foldl_cons]
    rw [show ((c, mgr).1 + 1, (close_session (c, mgr).2 n).1)
        = (c + 1, ({ config := mgr.config, sessions := eraseS mgr.sessions n } : SessionManager))
      from by rw [close_session_fst]]
    rw [ih]
    simp [Nat.add_assoc, Nat.add_comm 1]

/-- Folding erasures of a set of names equals filtering those names out. -/
theorem foldl_eraseS (names : List String) :
    ∀ l : List (String × ExegolSession),
    names.foldl eraseS l = l.filter (fun p => !(decide (p.1 ∈ names))) := by
  induction names with
  | nil =>
    intro l
    simp
  | cons n ns ih =>
    intro l
    rw [List.foldl_cons, ih (eraseS l n)]
    unfold eraseS
    rw [List.filter_filter]
    apply List.filter_congr
    intro p _
    by_cases h1 : p.1 = n <;> by_cases h2 : p.1 ∈ ns <;> simp [h1, h2]

/-- With distinct keys, membership of a key among the keys of the entries
satisfying `q` is the same as `q` holding of the entry itself. -/
theorem filter_keys_of_nodup (l : List (String × ExegolSession))
    (h : keysNodup l) (q : String × ExegolSession → Bool) :
    l.filter (fun p => !(decide (p.1 ∈ (l.filter q).map Prod.fst)))
      = l.filter (fun p => !(q p)) := by
  apply List.filter_congr
  intro p hp
  have hiff : (p.1 ∈ (l.filter q).map Prod.fst) ↔ q p = true := by
    constructor
    · intro hm
      rw [List.mem_map] at hm
      obtain ⟨r, hr, hkey⟩ := hm
      have hrl : r ∈ l := List.mem_of_mem_filter hr
      have hrq : q r = true := List.of_mem_filter hr
      have : r = p := keys_nodup_inj l h r p hrl hp hkey
      exact this ▸ hrq
    · intro hq
      exact List.mem_map.mpr ⟨p, List.mem_filter.mpr ⟨hp, hq⟩, rfl⟩
  by_cases hq : q p = true
  · simp [hiff, hq]
  · simp [hiff, hq]

/-- Characterisation of one `cleanup_idle_sessions` sweep on a registry
with distinct keys: the surviving map filters out exactly the sessions
idle at scan time, the count is the number of idle sessions, and the
config is untouched. -/
theorem cleanup_sessions_spec (mgr : SessionManager) (nowMs : Nat)
    (h : keysNodup mgr.sessions) :
    (cleanup_idle_sessions mgr nowMs).1
      = (mgr.sessions.filter (fun p => p.2.is_idle nowMs)).length
    ∧ (cleanup_idle_sessions mgr nowMs).2.sessions
      = mgr.sessions.filter (fun p => !(p.2.is_idle nowMs))
    ∧ (cleanup_idle_sessions mgr nowMs).2.config = mgr.config := by
  unfold cleanup_idle_sessions
  rw [cleanup_foldl_general]
  refine ⟨by simp, ?_, by simp⟩
  rw [foldl_eraseS]
  simp only
  exact filter_keys_of_nodup mgr.sessions h _

/-- Successful creation path: the started session is stored and returned. -/
theorem createSession_ok (mgr : SessionManager) (name : String) (freshId nowMs : Nat) :
    createSession mgr name freshId nowMs true
      = ({ config := mgr.config,
           sessions := insertS mgr.sessions name
             { newSession mgr.config name freshId nowMs with hasProcess := true } },
         Except.ok { newSession mgr.config name freshId nowMs with hasProcess := true }) := rfl

/-- Failed creation path: the spawn error propagates and the map is the
one creation began with. -/
theorem createSession_fail (mgr : SessionManager) (name : String) (freshId nowMs : Nat) :
    createSession mgr name freshId nowMs false
      = (mgr, Except.error StartError.spawnFailed) := rfl

/-- Creation never disturbs the entry of a different container name. -/
theorem createSession_lookup_ne (mgr : SessionManager) (name : String)
    (freshId nowMs : Nat) (spawnOk : Bool) (k : String) (hk : k ≠ name) :
    lookupS (createSession mgr name freshId nowMs spawnOk).1.sessions k
      = lookupS mgr.sessions k := by
  cases spawnOk
  · rfl
  · exact lookupS_insertS_ne mgr.sessions name k _ hk

/-- `get_or_create_session` on a cache miss is the creation path. -/
theorem get_or_create_eq_none (mgr : SessionManager) (name : String)
    (freshId nowMs : Nat) (spawnOk : Bool)
    (hl : lookupS mgr.sessions name = none) :
    get_or_create_session mgr name freshId nowMs spawnOk
      = createSession mgr name freshId nowMs spawnOk := by
  unfold get_or_create_session
  rw [hl]

/-- `get_or_create_session` on a cached live session returns it with the
registry untouched. -/
theorem get_or_create_eq_live (mgr : SessionManager) (name : String)
    (freshId nowMs : Nat) (spawnOk : Bool) (s₀ : ExegolSession)
    (hl : lookupS mgr.sessions name = some s₀)
    (hlive : (s₀.hasProcess && !s₀.is_closed) = true) :
    get_or_create_session mgr name freshId nowMs spawnOk = (mgr, Except.ok s₀) := by
  unfold get_or_create_session
  rw [hl]
  simp [hlive]

/-- `get_or_create_session` on a cached dead session erases it first and
is then the creation path. -/
theorem get_or_create_eq_dead (mgr : SessionManager) (name : String)
    (freshId nowMs : Nat) (spawnOk : Bool) (s₀ : ExegolSession)
    (hl : lookupS mgr.sessions name = some s₀)
    (hlive : (s₀.hasProcess && !s₀.is_closed) = false) :
    get_or_create_session mgr name freshId nowMs spawnOk
      = createSession { config := mgr.config, sessions := eraseS mgr.sessions name }
          name freshId nowMs spawnOk := by
  unfold get_or_create_session
  rw [hl]
  simp [hlive]

/-- C5, confirmed.  `get_or_create_session` returns (when it returns at
all rather than propagating a spawn error) a session that is started and
not closed, stored under the container name in the resulting registry; a
cached live entry is returned unchanged — same session object, registry
untouched; and key distinctness of the map (at most one entry, hence at
most one live session, per container name) is preserved. -/
theorem get_or_create_spec (mgr : SessionManager) (name : String)
    (freshId nowMs : Nat) (spawnOk : Bool) :
    (∀ s : ExegolSession,
      (get_or_create_session mgr name freshId nowMs spawnOk).2 = Except.ok s →
      s.hasProcess = true ∧ s.is_closed = false
      ∧ lookupS (get_or_create_session mgr name freshId nowMs spawnOk).1.sessions name
          = some s)
    ∧ (∀ s₀ : ExegolSession, lookupS mgr.sessions name = some s₀ →
      s₀.hasProcess = true → s₀.is_closed = false →
      get_or_create_session mgr name freshId nowMs spawnOk = (mgr, Except.ok s₀))
    ∧ (keysNodup mgr.sessions →
      keysNodup (get_or_create_session mgr name freshId nowMs spawnOk).1.sessions) := by
  cases hl : lookupS mgr.sessions name with
  | none =>
    have he := get_or_create_eq_none mgr name freshId nowMs spawnOk hl
    cases spawnOk
    · rw [he, createSession_fail]
      refine ⟨?_, ?_, ?_⟩
      · intro s hs
        cases hs
      · intro s₀ h0
        simp at h0
      · intro hnd
        exact hnd
    · rw [he, createSession_ok]
      refine ⟨?_, ?_, ?_⟩
      · intro s hs
        have hs' : s = { newSession mgr.config name freshId nowMs with hasProcess := true } :=
          (Except.ok.inj hs).symm
        subst hs'
        exact ⟨rfl, rfl, lookupS_insertS_self mgr.sessions name _⟩
      · intro s₀ h0
        simp at h0
      · intro hnd
        exact keysNodup_insertS mgr.sessions name _ hnd
  | some s₀ =>
    cases hlive : (s₀.hasProcess && !s₀.is_closed) with
    | true =>
      have he := get_or_create_eq_live mgr name freshId nowMs spawnOk s₀ hl hlive
      rw [he]
      obtain ⟨hp1, hp2⟩ := Bool.and_eq_true_iff.mp hlive
      refine ⟨?_, ?_, ?_⟩
      · intro s hs
        have hs' : s = s₀ := (Except.ok.inj hs).symm
        subst hs'
        refine ⟨hp1, ?_, hl⟩
        · simp only [Bool.not_eq_true'] at hp2
          exact hp2
      · intro s₀' h0 _ _
        have : s₀ = s₀' := Option.some.inj h0
        rw [this]
      · intro hnd
        exact hnd
    | false =>
      have he := get_or_create_eq_dead mgr name freshId nowMs spawnOk s₀ hl hlive
      cases spawnOk
      · rw [he, createSession_fail]
        refine ⟨?_, ?_, ?_⟩
        · intro s hs
          cases hs
        · intro s₀' h0 hp hcl
          have h0' : s₀ = s₀' := Option.some.inj h0
          subst h0'
          simp [hp, hcl] at hlive
        · intro hnd
          exact keysNodup_eraseS mgr.sessions name hnd
      · rw [he, createSession_ok]
        refine ⟨?_, ?_, ?_⟩
        · intro s hs
          have hs' : s = { newSession mgr.config name freshId nowMs with hasProcess := true } :=
            (Except.ok.inj hs).symm
          subst hs'
          exact ⟨rfl, rfl, lookupS_insertS_self _ name _⟩
        · intro s₀' h0 hp hcl
          have h0' : s₀ = s₀' := Option.some.inj h0
          subst h0'
          simp [hp, hcl] at hlive
        · intro hnd
          exact keysNodup_insertS _ name _ (keysNodup_eraseS mgr.sessions name hnd)

/-- Witness for C5: on the concrete registry `mgr2`, asking for container
`"a"` (cached, live) returns the very session `s0` with the registry
unchanged, found under `"a"`, and keeps the keys distinct. -/
theorem get_or_create_spec_wit :
    get_or_create_session mgr2 "a" 9 7 true = (mgr2, Except.ok s0)
    ∧ s0.hasProcess = true ∧ s0.is_closed = false
    ∧ lookupS (get_or_create_session mgr2 "a" 9 7 true).1.sessions "a" = some s0
    ∧ keysNodup (get_or_create_session mgr2 "a" 9 7 true).1.sessions := by
  obtain ⟨h1, h2, h3⟩ := get_or_create_spec mgr2 "a" 9 7 true
  have he := h2 s0 (by decide) rfl rfl
  have hc := h1 s0 (by rw [he])
  exact ⟨he, hc.1, hc.2.1, hc.2.2, h3 (by decide)⟩

/-- C10 counterexample.  The claim states that when `start()` fails inside
`get_or_create_session` the registry's session map is left unchanged.  On
the concrete registry `mgrDead`, whose cached entry for `"cont"` is dead
(closed), a call whose spawn fails returns the propagated spawn error but
with a registry different from the original: the dead entry was evicted
before creation was attempted, so the map went from one entry to none. -/
theorem spawn_fail_map_changed_cex :
    get_or_create_session mgrDead "cont" 2 5 false
      = ({ config := cfg0, sessions := [] }, Except.error StartError.spawnFailed)
    ∧ ({ config := cfg0, sessions := [] } : SessionManager) ≠ mgrDead := by
  exact ⟨by decide, by decide⟩

/-- C10, amended.  If creating a new session inside `get_or_create_session`
fails during `start()` (no live cached entry, and the spawn fails), the
error propagates to the caller and no entry is stored for that container
name — a dead cached entry, if one existed, has been evicted, while every
other container's entry is untouched; when there was no cached entry at
all, the registry is exactly unchanged; so a later call for the same name
retries creation from scratch. -/
theorem spawn_fail_no_entry (mgr : SessionManager) (name : String)
    (freshId nowMs : Nat)
    (hdead : ∀ s₀ : ExegolSession, lookupS mgr.sessions name = some s₀ →
      s₀.hasProcess = false ∨ s₀.is_closed = true) :
    (get_or_create_session mgr name freshId nowMs false).2
      = Except.error StartError.spawnFailed
    ∧ lookupS (get_or_create_session mgr name freshId nowMs false).1.sessions name = none
    ∧ (∀ k : String, k ≠ name →
        lookupS (get_or_create_session mgr name freshId nowMs false).1.sessions k
          = lookupS mgr.sessions k)
    ∧ (lookupS mgr.sessions name = none →
        (get_or_create_session mgr name freshId nowMs false).1 = mgr) := by
  cases hl : lookupS mgr.sessions name with
  | none =>
    have he := get_or_create_eq_none mgr name freshId nowMs false hl
    rw [he, createSession_fail]
    exact ⟨rfl, hl, fun k _ => rfl, fun _ => rfl⟩
  | some s₀ =>
    have hlive : (s₀.hasProcess && !s₀.is_closed) = false := by
      rcases hdead s₀ hl with h | h
      · simp [h]
      · simp [h]
    have he := get_or_create_eq_dead mgr name freshId nowMs false s₀ hl hlive
    rw [he, createSession_fail]
    refine ⟨rfl, lookupS_eraseS_self mgr.sessions name, ?_, ?_⟩
    · intro k hk
      exact lookupS_eraseS_ne mgr.sessions name k hk
    · intro h0
      simp at h0

/-- Witness for C10: on the dead-entry registry `mgrDead` the spawn
failure propagates, leaves no `"cont"` entry and no other entry disturbed;
applied again to the empty registry, the registry is exactly unchanged. -/
theorem spawn_fail_no_entry_wit :
    (get_or_create_session mgrDead "cont" 2 5 false).2
      = Except.error StartError.spawnFailed
    ∧ lookupS (get_or_create_session mgrDead "cont" 2 5 false).1.sessions "cont" = none
    ∧ lookupS (get_or_create_session mgrDead "cont" 2 5 false).1.sessions "other"
        = lookupS mgrDead.sessions "other"
    ∧ (get_or_create_session { config := cfg0, sessions := [] } "cont" 2 5 false).1
        = { config := cfg0, sessions := [] } := by
  have h1 := spawn_fail_no_entry mgrDead "cont" 2 5 (by
    intro s₀ h0
    have h0' : sDead = s₀ := by simpa [mgrDead, lookupS] using h0
    rw [← h0']
    exact Or.inr rfl)
  have h2 := spawn_fail_no_entry { config := cfg0, sessions := [] } "cont" 2 5 (by
    intro s₀ h0
    simp [lookupS] at h0)
  exact ⟨h1.1, h1.2.1, h1.2.2.1 "other" (by decide), h2.2.2.2 rfl⟩

/-- C7 counterexample.  The claim states that every call to `close()`
terminates with the process handle released (set to `None`).  The session
`sDead` — reachable from the live `s0` through an `exec` whose output pipe
reported end-of-stream, which sets the closed flag but does not clear the
process handle — makes `close()` return immediately through its
already-closed guard with the handle still held. -/
theorem close_dead_handle_cex :
    (newSession cfg0 "cont" 1 0).start true = Except.ok s0
    ∧ ExegolSession.exec s0 "n0" none 0 trEof
        = some (sDead, Except.error ExecError.sessionDied)
    ∧ sDead.is_closed = true
    ∧ sDead.hasProcess = true
    ∧ ExegolSession.close sDead CloseOutcome.graceful = sDead
    ∧ (ExegolSession.close sDead CloseOutcome.graceful).hasProcess ≠ false := by
  exact ⟨by decide, by decide, by decide, by decide, by decide, by decide⟩

/-- C7, amended.  `close()` is idempotent after the first completed call
(closing an already-closed session returns immediately with no effect on
state, and a second close is the identity on the first close's result);
every call terminates with the closed flag set, whatever the graceful
path did — including when it raised; and every call that finds the
session not yet closed releases the process handle.  A call that finds
the closed flag already set (as after a mid-read process death) returns
through the guard without touching the handle. -/
theorem close_idempotent_terminal (s : ExegolSession) (o o' : CloseOutcome) :
    (ExegolSession.close s o).is_closed = true
    ∧ ExegolSession.close (ExegolSession.close s o) o' = ExegolSession.close s o
    ∧ (s.is_closed = false → (ExegolSession.close s o).hasProcess = false)
    ∧ (s.is_closed = true → ExegolSession.close s o = s) := by
  unfold ExegolSession.close
  cases hc : s.is_closed with
  | true => simp [hc]
  | false => cases o <;> cases o' <;> simp [hc]

/-- Witness for C7: closing the live `s0` via the raising graceful path
sets the closed flag, releases the handle, and a second close is a no-op;
closing the already-closed `sDead` returns it unchanged. -/
theorem close_idempotent_terminal_wit :
    (ExegolSession.close s0 CloseOutcome.gracefulRaised).is_closed = true
    ∧ ExegolSession.close (ExegolSession.close s0 CloseOutcome.gracefulRaised)
        CloseOutcome.graceful = ExegolSession.close s0 CloseOutcome.gracefulRaised
    ∧ (ExegolSession.close s0 CloseOutcome.gracefulRaised).hasProcess = false
    ∧ ExegolSession.close sDead CloseOutcome.forcedKill = sDead := by
  have h1 := close_idempotent_terminal s0 CloseOutcome.gracefulRaised CloseOutcome.graceful
  have h2 := close_idempotent_terminal sDead CloseOutcome.forcedKill CloseOutcome.forcedKill
  exact ⟨h1.1, h1.2.1, h1.2.2.1 rfl, h2.2.2.2 rfl⟩

/-- C8, confirmed.  One `cleanup_idle_sessions` sweep on a registry with
distinct keys removes from the map exactly the sessions for which
`is_idle` was true at scan time, returns the number so closed, and leaves
every non-idle session untouched (the surviving map is exactly the
original filtered to the non-idle entries, config included); and
`is_idle` holds precisely when the idle time strictly exceeds the
configured idle threshold. -/
theorem cleanup_idle_spec (mgr : SessionManager) (nowMs : Nat)
    (h : keysNodup mgr.sessions) :
    (cleanup_idle_sessions mgr nowMs).1
      = (mgr.sessions.filter (fun p => p.2.is_idle nowMs)).length
    ∧ (cleanup_idle_sessions mgr nowMs).2.sessions
      = mgr.sessions.filter (fun p => !(p.2.is_idle nowMs))
    ∧ (cleanup_idle_sessions mgr nowMs).2.config = mgr.config
    ∧ (∀ (s : ExegolSession) (now2 : Nat),
        ExegolSession.is_idle s now2
          = decide (s.config.session_idle_timeout * 1000
              < now2 - s.metrics.last_command_at)) := by
  obtain ⟨h1, h2, h3⟩ := cleanup_sessions_spec mgr nowMs h
  exact ⟨h1, h2, h3, fun s now2 => rfl⟩

/-- Witness for C8: on the concrete registry `mgr2` at instant 300001 ms,
exactly the idle session under `"a"` is closed (count 1) and the fresh
session under `"b"` survives unchanged. -/
theorem cleanup_idle_spec_wit :
    (cleanup_idle_sessions mgr2 300001).1 = 1
    ∧ (cleanup_idle_sessions mgr2 300001).2.sessions = [("b", sFresh)]
    ∧ (cleanup_idle_sessions mgr2 300001).2.config = cfg0
    ∧ ExegolSession.is_idle s0 300001 = true
    ∧ ExegolSession.is_idle sFresh 300001 = false := by
  obtain ⟨h1, h2, h3, _⟩ := cleanup_idle_spec mgr2 300001 (by decide)
  refine ⟨?_, ?_, ?_, by decide, by decide⟩
  · rw [h1]; decide
  · rw [h2]; decide
  · rw [h3]; decide

/-- C9, confirmed.  The metrics counters are mutated only by the owning
session after each completed execution: `record_command` increments the
command counter by exactly one, adds the (non-negative) elapsed
milliseconds, and refreshes the last-command timestamp, so both counters
are monotonically non-decreasing; a completed `exec` — timed-out runs
included — updates the session's metrics through exactly one
`record_command` with its elapsed time, while a failed `exec` leaves them
untouched; `close` never touches metrics; `get_or_create_session` leaves
the metrics of every other container's session in place and, on reuse of
a live session, leaves the whole registry unchanged; and a cleanup sweep
leaves every surviving session's state (metrics included) unchanged. -/
theorem metrics_discipline :
    (∀ (m : SessionMetrics) (ms nowMs : Nat),
      (m.record_command ms nowMs).commands_executed = m.commands_executed + 1
      ∧ (m.record_command ms nowMs).total_execution_time_ms
          = m.total_execution_time_ms + ms
      ∧ (m.record_command ms nowMs).last_command_at = nowMs
      ∧ m.commands_executed ≤ (m.record_command ms nowMs).commands_executed
      ∧ m.total_execution_time_ms ≤ (m.record_command ms nowMs).total_execution_time_ms)
    ∧ (∀ (s : ExegolSession) (nonce : String) (timeout? : Option Nat) (startMs : Nat)
        (trace : List ReadStep) (s' : ExegolSession) (r : ExecResult),
      ExegolSession.exec s nonce timeout? startMs trace = some (s', Except.ok r) →
      s'.metrics = s.metrics.record_command r.execution_time_ms
        (startMs + r.execution_time_ms))
    ∧ (∀ (s : ExegolSession) (nonce : String) (timeout? : Option Nat) (startMs : Nat)
        (trace : List ReadStep) (s' : ExegolSession) (e : ExecError),
      ExegolSession.exec s nonce timeout? startMs trace = some (s', Except.error e) →
      s'.metrics = s.metrics)
    ∧ (∀ (s : ExegolSession) (o : CloseOutcome),
      (ExegolSession.close s o).metrics = s.metrics)
    ∧ (∀ (mgr : SessionManager) (name : String) (freshId nowMs : Nat) (spawnOk : Bool)
        (k : String) (sk : ExegolSession), k ≠ name →
      lookupS mgr.sessions k = some sk →
      lookupS (get_or_create_session mgr name freshId nowMs spawnOk).1.sessions k
        = some sk)
    ∧ (∀ (mgr : SessionManager) (name : String) (freshId nowMs : Nat) (spawnOk : Bool)
        (s₀ : ExegolSession), lookupS mgr.sessions name = some s₀ →
      s₀.hasProcess = true → s₀.is_closed = false →
      (get_or_create_session mgr name freshId nowMs spawnOk).1 = mgr)
    ∧ (∀ (mgr : SessionManager) (nowMs : Nat) (k : String) (sk : ExegolSession),
      keysNodup mgr.sessions →
      lookupS (cleanup_idle_sessions mgr nowMs).2.sessions k = some sk →
      lookupS mgr.sessions k = some sk) := by
  refine ⟨?_, ?_, ?_, ?_, ?_, ?_, ?_⟩
  · intro m ms nowMs
    exact ⟨rfl, rfl, rfl, Nat.le_succ _, Nat.le_add_right _ _⟩
  · intro s nonce timeout? startMs trace s' r h
    unfold ExegolSession.exec at h
    by_cases hp : s.hasProcess = false
    · rw [if_pos hp] at h
      simp at h
    · rw [if_neg hp] at h
      by_cases hcl : s.is_closed = true
      · rw [if_pos hcl] at h
        simp at h
      · rw [if_neg hcl] at h
        unfold exec_locked at h
        cases hr : readLoop (s.config.markerPre ++ nonce)
            ((timeout?.getD s.config.default_timeout) * 1000) [] 0 trace with
        | none =>
          rw [hr] at h
          cases h
        | some out =>
          rw [hr] at h
          cases out with
          | died => simp at h
          | finished lines ec timedOut tExit =>
            simp only [Option.some.injEq, Prod.mk.injEq, Except.ok.injEq] at h
            obtain ⟨h1, h2⟩ := h
            subst h2
            rw [← h1]
  · intro s nonce timeout? startMs trace s' e h
    unfold ExegolSession.exec at h
    by_cases hp : s.hasProcess = false
    · rw [if_pos hp] at h
      simp only [Option.some.injEq, Prod.mk.injEq] at h
      rw [← h.1]
    · rw [if_neg hp] at h
      by_cases hcl : s.is_closed = true
      · rw [if_pos hcl] at h
        simp only [Option.some.injEq, Prod.mk.injEq] at h
        rw [← h.1]
      · rw [if_neg hcl] at h
        unfold exec_locked at h
        cases hr : readLoop (s.config.markerPre ++ nonce)
            ((timeout?.getD s.config.default_timeout) * 1000) [] 0 trace with
        | none =>
          rw [hr] at h
          cases h
        | some out =>
          rw [hr] at h
          cases out with
          | finished lines ec timedOut tExit => simp at h
          | died =>
            simp only [Option.some.injEq, Prod.mk.injEq] at h
            rw [← h.1]
  · intro s o
    unfold ExegolSession.close
    cases hc : s.is_closed with
    | true => simp [hc]
    | false => cases o <;> simp [hc]
  · intro mgr name freshId nowMs spawnOk k sk hk hlk
    cases hl : lookupS mgr.sessions name with
    | none =>
      rw [get_or_create_eq_none mgr name freshId nowMs spawnOk hl]
      rw [createSession_lookup_ne mgr name freshId nowMs spawnOk k hk]
      exact hlk
    | some s₀ =>
      cases hlive : (s₀.hasProcess && !s₀.is_closed) with
      | true =>
        rw [get_or_create_eq_live mgr name freshId nowMs spawnOk s₀ hl hlive]
        exact hlk
      | false =>
        rw [get_or_create_eq_dead mgr name freshId nowMs spawnOk s₀ hl hlive]
        rw [createSession_lookup_ne _ name freshId nowMs spawnOk k hk]
        rw [show ({ config := mgr.config, sessions := eraseS mgr.sessions name }
            : SessionManager).sessions = eraseS mgr.sessions name from rfl]
        rw [lookupS_eraseS_ne mgr.sessions name k hk]
        exact hlk
  · intro mgr name freshId nowMs spawnOk s₀ hl hp hcl
    rw [get_or_create_eq_live mgr name freshId nowMs spawnOk s₀ hl (by simp [hp, hcl])]
  · intro mgr nowMs k sk hnd hlook
    obtain ⟨_, h2, _⟩ := cleanup_sessions_spec mgr nowMs hnd
    rw [h2] at hlook
    exact lookupS_filter_nodup mgr.sessions hnd _ k sk hlook

/-- Witness for C9: the counter equations at a concrete metrics record; a
concrete completed `exec` whose metrics update is exactly one
`record_command`; a concrete `close` leaving metrics in place; a concrete
live reuse leaving the registry unchanged; and a concrete cleanup
survivor traced back unchanged to the original registry. -/
theorem metrics_discipline_wit :
    (SessionMetrics.record_command ⟨0, 0, 0, 0⟩ 5 9).commands_executed = 0 + 1
    ∧ ({ s0 with metrics := mAfter 5 } : ExegolSession).metrics
        = s0.metrics.record_command rEnd.execution_time_ms (0 + rEnd.execution_time_ms)
    ∧ (ExegolSession.close s0 CloseOutcome.graceful).metrics = s0.metrics
    ∧ (get_or_create_session mgr2 "a" 9 7 true).1 = mgr2
    ∧ lookupS mgr2.sessions "b" = some sFresh := by
  obtain ⟨c1, c2, c3, c4, c5, c6, c7⟩ := metrics_discipline
  refine ⟨(c1 ⟨0, 0, 0, 0⟩ 5 9).1, ?_, c4 s0 CloseOutcome.graceful, ?_, ?_⟩
  · exact c2 s0 "n0" none 0 trCex2 { s0 with metrics := mAfter 5 } rEnd (by decide)
  · exact c6 mgr2 "a" 9 7 true s0 (by decide) rfl rfl
  · exact c7 mgr2 300001 "b" sFresh (by decide) (by decide)
